import Mathlib

/-!
Verification development for the backups-n-sync repository.

The Python sources `backups_n_sync.py`, `entrypoint.py` and `health_server.py`
are shallowly embedded below: pure computations become Lean functions, the
effectful pieces (subprocess execution, filesystem reads/writes) are
parametrised by explicit result arguments, and Python exceptions are modelled
with `Except`.  Dates are represented by their `YYYYMMDD` numeral (the integer
value of the eight digits), which is order-isomorphic to chronological order
because the fields have fixed width.
-/

/-! ## Filename date parsing (`parse_backup_date`, backups_n_sync.py lines 402-411)

The source uses `re.search(r'_(\d8)\.tar\.gz$', filename)` (8-fold `\d`)
followed by `datetime.strptime(date_str, '%Y%m%d')` under a catch-all.
Notes on the Python semantics reproduced here:
* `$` (without `re.MULTILINE`) matches at the end of the string *or just
  before a newline at the end of the string*, so one trailing `'\n'` is
  tolerated by the regex; this is modelled by `stripOneTrailingNewline`.
* `strptime` with `%Y%m%d` on exactly eight digits demands a two-digit month
  `01`-`12` and a two-digit day `01`-`31` (otherwise the match leaves
  unconverted data and raises), then the `datetime` constructor validates the
  day against the month length and the year against `MINYEAR = 1`
  (`MAXYEAR = 9999`); any failure is swallowed and `None` is returned.
-/

/-- ASCII decimal digit, the characters `\d` matches on the inputs at hand. -/
def isDigitChar (c : Char) : Bool := decide ('0' ≤ c) && decide (c ≤ '9')

/-- Numeric value of a string of decimal digits (how `int`/`strptime` reads them). -/
def digitsToNat (ds : List Char) : Nat := ds.foldl (fun a c => a * 10 + (c.toNat - 48)) 0

/-- Gregorian leap-year rule used by Python's `datetime`. -/
def isLeapYear (y : Nat) : Bool := (y % 4 == 0 && y % 100 != 0) || y % 400 == 0

/-- Length of a month as validated by the `datetime` constructor. -/
def daysInMonth (y m : Nat) : Nat :=
  if m == 2 then (if isLeapYear y then 29 else 28)
  else if m == 4 || m == 6 || m == 9 || m == 11 then 30
  else 31

/-- A calendar date `datetime(y, m, d)` accepts (`MINYEAR = 1`, `MAXYEAR = 9999`). -/
def validDate (y m d : Nat) : Bool :=
  1 ≤ y && y ≤ 9999 && 1 ≤ m && m ≤ 12 && 1 ≤ d && d ≤ daysInMonth y m

/-- The seven characters of the literal suffix `.tar.gz`. -/
def tarGzChars : List Char := ['.', 't', 'a', 'r', '.', 'g', 'z']

/-- Python's `$` also matches just before a single newline at the end of the
string; stripping that newline first makes the rest of the match anchored at
the true end. -/
def stripOneTrailingNewline (s : List Char) : List Char :=
  if s.getLast? == some '\n' then s.dropLast else s

/-- The last 16 characters of the candidate filename: `_` + 8 digits + `.tar.gz`. -/
def suffix16 (t : List Char) : List Char := t.drop (t.length - 16)

/-- The eight digit characters of the embedded date, when the shape matches. -/
def datedDigits (t : List Char) : List Char := ((suffix16 t).drop 1).take 8

/-- `t` ends with an underscore, exactly eight decimal digits, and `.tar.gz`:
the shape `re.search(r'_(\d8)\.tar\.gz$', ...)` requires at the anchor. -/
def endsWithDatedSuffix (t : List Char) : Bool :=
  decide (16 ≤ t.length)
    && ((suffix16 t).take 1 == ['_'])
    && (datedDigits t).all isDigitChar
    && ((suffix16 t).drop 9 == tarGzChars)

/-- The `YYYYMMDD` numeral embedded at the end of `t` (meaningful when
`endsWithDatedSuffix t`). -/
def datedValue (t : List Char) : Nat := digitsToNat (datedDigits t)

/-- `parse_backup_date` on the character list of the filename; the returned
`Nat` is the `YYYYMMDD` numeral of the parsed `datetime`. -/
def parse_backup_date_chars (s : List Char) : Option Nat :=
  if endsWithDatedSuffix (stripOneTrailingNewline s) then
    if validDate (datedValue (stripOneTrailingNewline s) / 10000)
        (datedValue (stripOneTrailingNewline s) / 100 % 100)
        (datedValue (stripOneTrailingNewline s) % 100) then
      some (datedValue (stripOneTrailingNewline s))
    else none
  else none

/-- `parse_backup_date(filename)` (backups_n_sync.py lines 402-411). -/
def parse_backup_date (s : String) : Option Nat := parse_backup_date_chars s.data

/-- A filename ends (exactly, no newline tolerance) with the given suffix. -/
def endsWithChars (s suffix : List Char) : Bool :=
  decide (suffix.length ≤ s.length) && (s.drop (s.length - suffix.length) == suffix)

/-! ## Retention policy (`apply_retention_policy`, backups_n_sync.py lines 414-470)

The function pairs each listed filename with its parsed date (dropping the
unparseable ones), sorts by date with `backups_with_dates.sort(key=lambda x:
x[1], reverse=True)` — CPython's stable sort, so entries with equal dates keep
their listing order — keeps the first `max_backups` entries and issues a
delete for each of the rest.  The keep/delete *selection* is the pure part
embedded here.
-/

/-- One remote entry paired with its parsed date numeral. -/
abbrev RetEntry := String × Nat

/-- The order `sort(key=lambda x: x[1], reverse=True)` establishes: `p` may
come before `q` iff `p`'s date is at least `q`'s. -/
def dateDesc (p q : RetEntry) : Prop := q.2 ≤ p.2

instance : DecidableRel dateDesc := fun p q => inferInstanceAs (Decidable (q.2 ≤ p.2))

instance : IsTotal RetEntry dateDesc := ⟨fun p q => Nat.le_total q.2 p.2⟩

instance : IsTrans RetEntry dateDesc :=
  ⟨fun _ _ _ h1 h2 => Nat.le_trans h2 h1⟩

/-- `backups_with_dates` (lines 435-439): entries whose filename yields a date. -/
def backups_with_dates (files : List String) : List RetEntry :=
  files.filterMap (fun f => (parse_backup_date f).map (fun d => (f, d)))

/-- The dated entries after the stable descending sort (line 441).  CPython's
stable sort with a reversed comparison is exactly insertion sort under
`dateDesc`: equal dates keep listing order. -/
def sorted_backups (files : List String) : List RetEntry :=
  List.insertionSort dateDesc (backups_with_dates files)

/-- The entries the loop at lines 445-447 keeps (`i < max_backups`). -/
def kept_backups (files : List String) (max_backups : Nat) : List RetEntry :=
  (sorted_backups files).take max_backups

/-- The entries the loop at lines 448-455 deletes via `rclone delete`. -/
def deleted_backups (files : List String) (max_backups : Nat) : List RetEntry :=
  (sorted_backups files).drop max_backups

/-! ## Backup cycle (`main`, backups_n_sync.py lines 533-742)

Each volume in the configured list is processed in turn:
* a missing source directory records state `2` (skipped) and `continue`s;
* a failing volume-specific prescript records state `2` and `continue`s;
* `BackupCreationError`, `RcloneError` and any other exception from the
  per-volume `try` block record state `1` (failed) and `continue`;
* otherwise state `0` (success) is recorded.
The environment of one cycle is abstracted by which of these branches each
volume takes.
-/

/-- Outcome recorded for one volume in `volume_states` (0 success, 1 failed,
2 skipped). -/
inductive VolOutcome
  | success
  | failed
  | skipped
deriving DecidableEq

/-- The `state` value `main` stores for the outcome. -/
def VolOutcome.stateValue : VolOutcome → Nat
  | .success => 0
  | .failed => 1
  | .skipped => 2

/-- The exception kinds the per-volume `try` distinguishes (lines 665, 691, 717). -/
inductive StepFailure
  | backupCreation
  | rcloneUpload
  | other

/-- One cycle's environment: for each volume, whether its source directory
exists, whether its prescript (if any) succeeds, and whether the backup body
raises. -/
structure CycleEnv where
  isdir : String → Bool
  volumePrescriptOk : String → Bool
  stepError : String → Option StepFailure

/-- The branch structure of the per-volume body of `main`'s loop. -/
def process_volume (env : CycleEnv) (volume : String) : VolOutcome :=
  if !env.isdir volume then .skipped
  else if !env.volumePrescriptOk volume then .skipped
  else match env.stepError volume with
    | some _ => .failed
    | none => .success

/-- The whole cycle: the loop visits every volume of the list in order and
records exactly one outcome for each (`continue`, never `break` or `return`). -/
def run_cycle (env : CycleEnv) (volumes : List String) : List (String × VolOutcome) :=
  volumes.map (fun v => (v, process_volume env v))

/-- Number of volumes of the trace recorded with the given outcome. -/
def count_outcome (o : VolOutcome) (trace : List (String × VolOutcome)) : Nat :=
  trace.countP (fun p => decide (p.2 = o))

/-- `volumes_success` as counted by `main` (incremented only on state 0). -/
def volumes_success_counter (trace : List (String × VolOutcome)) : Nat :=
  count_outcome .success trace

/-- `volumes_failed` as counted by `main` (incremented on state 1 and also on
the skipped branches, lines 547 and 573). -/
def volumes_failed_counter (trace : List (String × VolOutcome)) : Nat :=
  count_outcome .failed trace + count_outcome .skipped trace

/-! ## Command execution with retries (`run_command`, backups_n_sync.py lines 89-146)

The loop `for attempt in range(retries + 1)` runs the command; on success it
returns, on `CalledProcessError` with attempts remaining it sleeps
`retry_delay * (2 ** attempt)` seconds (line 131) and retries, and on the last
attempt it re-raises the current exception (line 142).  The external command is
abstracted as a function from the attempt number to the outcome of that
invocation (`.ok` captured output / `.error` the raised `CalledProcessError`).
The embedding returns the surfaced result, the number of attempts performed,
and the list of backoff delays slept, in order. -/

/-- Outcome of invoking the external command on a given attempt number. -/
abbrev CmdAttempt := Nat → Except String String

/-- The retry loop of `run_command`, entered at attempt number `attempt` with
`remaining` further attempts allowed after the current one. -/
def run_command_loop (exec : CmdAttempt) (retry_delay : Nat) :
    Nat → Nat → Except String String × Nat × List Nat
  | attempt, 0 => (exec attempt, 1, [])
  | attempt, remaining + 1 =>
    match exec attempt with
    | .ok out => (.ok out, 1, [])
    | .error _ =>
      let rest := run_command_loop exec retry_delay (attempt + 1) remaining
      (rest.1, rest.2.1 + 1, retry_delay * 2 ^ attempt :: rest.2.2)

/-- `run_command(cmd, check=True, retries, retry_delay)`: result surfaced to
the caller, total attempts performed, and backoff delays slept between
attempts. -/
def run_command (exec : CmdAttempt) (retries retry_delay : Nat) :
    Except String String × Nat × List Nat :=
  run_command_loop exec retry_delay 0 retries

/-! ## Scheduler (`entrypoint.py`)

Datetimes are modelled as a count of seconds; the day is `t / 86400` and the
time-of-day is `t % 86400`.  `get_next_run_time` (lines 96-105) combines
today's date with the target time-of-day and adds one day when the current
time-of-day has already reached the target.  `main` (lines 241-246) runs a
first cycle immediately when `SKIPFIRSTRUN` is unset and the current
time-of-day is at or past the wakeup time. -/

def secondsPerDay : Nat := 86400

/-- `get_next_run_time(target_time)` with the current datetime passed
explicitly: `datetime.combine(now.date(), target_time)` plus one day when
`now.time() >= target_time`. -/
def get_next_run_time (now target : Nat) : Nat :=
  let target_datetime := now / secondsPerDay * secondsPerDay + target
  if target ≤ now % secondsPerDay then target_datetime + secondsPerDay
  else target_datetime

/-- The immediate-run decision of `main` (entrypoint.py lines 241-243):
run now iff `SKIPFIRSTRUN` is disabled and `now >= wakeup_time`. -/
def run_first_cycle_immediately (skip_first_run : Bool) (now target : Nat) : Bool :=
  !skip_first_run && decide (target ≤ now % secondsPerDay)

/-! ## Restore test (`test_restore`, backups_n_sync.py lines 320-330)

The body runs exactly one external command, `tar tzf <file> > /dev/null`
(a *listing* of the archive contents), returns `True` when it succeeds and
`False` when anything raises.  It never extracts and never touches a scratch
directory, so the embedding exposes the full list of commands it issues. -/

/-- The one command `test_restore` issues (line 325). -/
def test_restore_command (backup_file : String) : String :=
  "tar tzf " ++ backup_file ++ " > /dev/null"

/-- Every external command issued by one call of `test_restore`, in order. -/
def test_restore_commands (backup_file : String) : List String :=
  [test_restore_command backup_file]

/-- `test_restore(backup_file)` with the command execution abstracted:
`True` on success, `False` when the command raises (the catch-all at 328). -/
def test_restore (exec : String → Except String Unit) (backup_file : String) : Bool :=
  match exec (test_restore_command backup_file) with
  | .ok _ => true
  | .error _ => false

/-- `s` starts with the characters `p`. -/
def startsWithChars (s p : List Char) : Bool := s.take p.length == p

/-- A `tar` invocation in extraction mode (`tar x...`). -/
def is_extraction_command (c : String) : Bool :=
  startsWithChars c.data ['t', 'a', 'r', ' ', 'x']

/-- A file-removal invocation (`rm ...`). -/
def is_removal_command (c : String) : Bool :=
  startsWithChars c.data ['r', 'm', ' ']

/-! ## State store and health endpoints (`health_server.py`)

The JSON state file is modelled as an insertion-ordered dictionary — a list of
key/value pairs with unique keys, exactly what `json.load`/`json.dump`
round-trip.  File-system and clock effects are passed in explicitly. -/

/-- A JSON value as stored in `/tmp/backup_state.json` (numeric values are
modelled as naturals; none of the verified claims depends on fractional
parts). -/
inductive JVal
  | str (s : String)
  | num (n : Nat)
  | bool (b : Bool)
  | null
  | obj (fields : List (String × JVal))

/-- Python truthiness of a JSON value (`if start_time:` and friends). -/
def jTruthy : JVal → Bool
  | .str s => !(s == "")
  | .num n => !(n == 0)
  | .bool b => b
  | .null => false
  | .obj l => !l.isEmpty

/-- The in-memory state dictionary. -/
abbrev StDict := List (String × JVal)

/-- `state.get(k)`: `some` value when the key is present, else `none`. -/
def getSt (st : StDict) (k : String) : Option JVal :=
  (st.find? (fun p => p.1 == k)).map Prod.snd

/-- `state.get(k, default)`. -/
def getStD (st : StDict) (k : String) (d : JVal) : JVal := (getSt st k).getD d

/-- The default state literal of `get_state` (health_server.py lines 30-40). -/
def default_state : StDict :=
  [("status", .str "starting"),
   ("last_backup_time", .null),
   ("last_backup_status", .null),
   ("total_backups", .num 0),
   ("total_failures", .num 0),
   ("current_operation", .null),
   ("volumes_backed_up", .num 0),
   ("volumes_failed", .num 0),
   ("last_error", .null)]

/-- `get_state()` (lines 21-40): the parsed file content when the file exists
and parses, the default state otherwise (missing file, or any exception while
reading/parsing, which the `try` swallows with a warning). -/
def get_state (fileExists : Bool) (readResult : Except String StDict) : StDict :=
  if fileExists then
    match readResult with
    | .ok s => s
    | .error _ => default_state
  else default_state

/-- An HTTP response produced by a handler: status code and JSON body. -/
structure HttpResponse where
  code : Nat
  body : List (String × JVal)

/-- Whether an optional state value is the given string (Python `==` / `in`
comparisons against `state.get('status')`). -/
def statusIsStr (v : Option JVal) (s : String) : Bool :=
  match v with
  | some (.str t) => t == s
  | _ => false

/-- `handle_health` (lines 86-99): healthy iff `status != 'error'` (a missing
status is healthy too, as in Python `None != 'error'`). -/
def handle_health (nowIso : String) (st : StDict) : HttpResponse :=
  let healthy := !(statusIsStr (getSt st "status") "error")
  { code := if healthy then 200 else 503,
    body := [("status", .str (if healthy then "healthy" else "unhealthy")),
             ("timestamp", .str nowIso),
             ("current_operation", getStD st "current_operation" .null)] }

/-- `handle_ready` (lines 101-113): ready iff `status` is one of
`idle`, `running`, `completed`. -/
def handle_ready (nowIso : String) (st : StDict) : HttpResponse :=
  let ready := statusIsStr (getSt st "status") "idle"
    || statusIsStr (getSt st "status") "running"
    || statusIsStr (getSt st "status") "completed"
  { code := if ready then 200 else 503,
    body := [("ready", .bool ready), ("timestamp", .str nowIso)] }

def obrace : String := "\x7b"

def cbrace : String := "\x7d"

def quoteStr : String := "\""

/-- Rendering of a state value into a metric line (the f-string payloads). -/
def jvalRender : JVal → String
  | .str s => s
  | .num n => toString n
  | .bool b => if b then "True" else "False"
  | .null => "None"
  | .obj _ => "object"

/-- One Prometheus line `name{backuphost="host"} value`. -/
def metric_line (name host : String) (v : JVal) : String :=
  name ++ obrace ++ "backuphost=" ++ quoteStr ++ host ++ quoteStr ++ cbrace
    ++ " " ++ jvalRender v

/-- One per-volume line `name{backuphost="host",volume="volume"} value`. -/
def volume_metric_line (name host volume : String) (v : JVal) : String :=
  name ++ obrace ++ "backuphost=" ++ quoteStr ++ host ++ quoteStr
    ++ ",volume=" ++ quoteStr ++ volume ++ quoteStr ++ cbrace ++ " " ++ jvalRender v

/-- The fields of an object value (empty for non-objects). -/
def objFields (v : JVal) : List (String × JVal) :=
  match v with
  | .obj l => l
  | _ => []

/-- `info.get(k, default)` on a per-volume entry. -/
def objGetD (v : JVal) (k : String) (d : JVal) : JVal := getStD (objFields v) k d

/-- `handle_metrics` (health_server.py lines 115-210) with the clock and
`datetime.fromisoformat` passed in.  The only statement of the handler that
can raise is the *unguarded* `datetime.fromisoformat(start_time)` at line 125
(the one at line 161 sits in a `try` that falls back to `0`); everything else
is `state.get` with defaults and string formatting.  The result is the status
code and the metric lines. -/
def handle_metrics (isoParse : String → Option Nat) (nowTs : Nat) (host : String)
    (st : StDict) : Except String (Nat × List String) := do
  let uptime_seconds ←
    match getSt st "start_time" with
    | some v =>
      if jTruthy v then
        match v with
        | .str s =>
          match isoParse s with
          | some t => pure (nowTs - t)
          | none => Except.error ("ValueError: invalid isoformat string " ++ s)
        | _ => Except.error "TypeError: fromisoformat argument must be str"
      else pure 0
    | none => pure (0 : Nat)
  let last_success_ts : Nat :=
    match getSt st "last_backup_time" with
    | some (.str s) => (isoParse s).getD 0
    | _ => 0
  let base_lines : List String :=
    ["# HELP backup_total_count Total number of backup cycles completed",
     "# TYPE backup_total_count counter",
     metric_line "backup_total_count" host (getStD st "total_backups" (.num 0)), "",
     "# HELP backup_failure_count Total number of backup failures",
     "# TYPE backup_failure_count counter",
     metric_line "backup_failure_count" host (getStD st "total_failures" (.num 0)), "",
     "# HELP backup_volumes_success Number of volumes successfully backed up in last cycle",
     "# TYPE backup_volumes_success gauge",
     metric_line "backup_volumes_success" host (getStD st "volumes_backed_up" (.num 0)), "",
     "# HELP backup_volumes_failed Number of volumes that failed in last cycle",
     "# TYPE backup_volumes_failed gauge",
     metric_line "backup_volumes_failed" host (getStD st "volumes_failed" (.num 0)), "",
     "# HELP backup_last_duration_seconds Duration of last backup cycle in seconds",
     "# TYPE backup_last_duration_seconds gauge",
     metric_line "backup_last_duration_seconds" host (getStD st "last_duration" (.num 0)), "",
     "# HELP backup_last_success_timestamp Unix timestamp of last successful backup",
     "# TYPE backup_last_success_timestamp gauge",
     metric_line "backup_last_success_timestamp" host (.num last_success_ts), "",
     "# HELP backup_uptime_seconds Service uptime in seconds",
     "# TYPE backup_uptime_seconds gauge",
     metric_line "backup_uptime_seconds" host (.num uptime_seconds), "",
     "# HELP backup_last_total_size Total size of last backup cycle in megabytes",
     "# TYPE backup_last_total_size gauge",
     metric_line "backup_last_total_size" host (getStD st "last_total_size_mb" (.num 0)), ""]
  let volume_states := objFields (getStD st "volume_states" (.obj []))
  let volume_lines : List String :=
    if volume_states.isEmpty then []
    else
      ["# HELP backup_volume_size Volume backup size in megabytes",
       "# TYPE backup_volume_size gauge"]
      ++ volume_states.map
          (fun p => volume_metric_line "backup_volume_size" host p.1 (objGetD p.2 "size_mb" (.num 0)))
      ++ [""]
      ++ ["# HELP backup_volume_state Volume backup state (0=success, 1=failed, 2=skipped)",
          "# TYPE backup_volume_state gauge"]
      ++ volume_states.map
          (fun p => volume_metric_line "backup_volume_state" host p.1 (objGetD p.2 "state" (.num 2)))
      ++ [""]
      ++ ["# HELP backup_volume_duration Duration of volume backup in seconds",
          "# TYPE backup_volume_duration gauge"]
      ++ volume_states.map
          (fun p => volume_metric_line "backup_volume_duration" host p.1 (objGetD p.2 "duration_seconds" (.num 0)))
      ++ [""]
  pure (200, base_lines ++ volume_lines)

/-! ## State updates (`update_state`, health_server.py lines 43-65)

`update_state(**kwargs)` reads the current state via `get_state`, replaces
each callable keyword value by its application to that state (a caller-supplied
closure may itself raise), merges with `state.update(kwargs)`, creates the
directory and writes the file — the whole body inside one `try` whose handler
only logs.  Each effectful sub-step is passed in as its result. -/

/-- A keyword argument value: a plain value, or a callable applied to the
current state (which may raise). -/
inductive UpdVal
  | val (v : JVal)
  | fn (f : StDict → Except String JVal)

/-- The callable-resolution loop (lines 53-55): left to right, each callable
receives the pre-merge state; a raising callable aborts the body. -/
def eval_kwargs (state : StDict) : List (String × UpdVal) → Except String (List (String × JVal))
  | [] => .ok []
  | (k, .val v) :: rest => do
    let r ← eval_kwargs state rest
    .ok ((k, v) :: r)
  | (k, .fn f) :: rest => do
    let v ← f state
    let r ← eval_kwargs state rest
    .ok ((k, v) :: r)

/-- `state[k] = v` on the ordered dictionary: overwrite in place when the key
exists, append otherwise. -/
def set_key (st : StDict) (k : String) (v : JVal) : StDict :=
  if st.any (fun p => p.1 == k) then st.map (fun p => if p.1 == k then (k, v) else p)
  else st ++ [(k, v)]

/-- `state.update(kwargs)` (line 57). -/
def dict_update (st : StDict) (kw : List (String × JVal)) : StDict :=
  kw.foldl (fun s p => set_key s p.1 p.2) st

/-- What a call of `update_state` amounts to for its caller: either the merged
state was written, or an exception was caught and logged (lines 64-65).  No
third alternative exists — nothing propagates. -/
inductive UpdateOutcome
  | written (s : StDict)
  | errorLogged (e : String)

/-- The body of the `try` in `update_state`: read (with `get_state`'s own
fallback), resolve callables, merge, `os.makedirs`, write. -/
def update_state_body (fileExists : Bool) (readResult : Except String StDict)
    (kwargs : List (String × UpdVal)) (makedirsResult : Except String Unit)
    (writeResult : StDict → Except String Unit) : Except String StDict :=
  match eval_kwargs (get_state fileExists readResult) kwargs with
  | .error e => .error e
  | .ok kw =>
    match makedirsResult with
    | .error e => .error e
    | .ok _ =>
      match writeResult (dict_update (get_state fileExists readResult) kw) with
      | .error e => .error e
      | .ok _ => .ok (dict_update (get_state fileExists readResult) kw)

/-- `update_state` itself: the body under the catch-all `try`. -/
def update_state (fileExists : Bool) (readResult : Except String StDict)
    (kwargs : List (String × UpdVal)) (makedirsResult : Except String Unit)
    (writeResult : StDict → Except String Unit) : UpdateOutcome :=
  match update_state_body fileExists readResult kwargs makedirsResult writeResult with
  | .ok s => .written s
  | .error e => .errorLogged e

/-! ## Concrete inputs used by the theorems below. -/

/-- The ten dated listing of the specification's retention example. -/
def retention_example_listing : List String :=
  ["volA_20240101.tar.gz", "volA_20240102.tar.gz", "volA_20240103.tar.gz",
   "volA_20240104.tar.gz", "volA_20240105.tar.gz", "volA_20240106.tar.gz",
   "volA_20240107.tar.gz", "volA_20240108.tar.gz", "volA_20240109.tar.gz",
   "volA_20240110.tar.gz"]

/-- A concrete cycle environment: `vol2`'s directory is missing, `vol3`'s
prescript fails, `vol4`'s upload raises, the others succeed. -/
def witness_cycle_env : CycleEnv where
  isdir := fun v => !(v == "vol2")
  volumePrescriptOk := fun v => !(v == "vol3")
  stepError := fun v => if v == "vol4" then some .rcloneUpload else none

/-- Strict version of the retention order, used to show the sorted listing is
unique when all dates are distinct. -/
def dateDescStrict (p q : RetEntry) : Prop := q.2 < p.2

instance : IsAntisymm RetEntry dateDescStrict :=
  ⟨fun _ _ h1 h2 => (Nat.lt_asymm h1 h2).elim⟩

/-! ## Helper lemmas for the retention theorems -/

theorem sorted_strict_of_nodup_dates {l : List RetEntry} (hs : l.Sorted dateDesc)
    (hn : (l.map Prod.snd).Nodup) : l.Sorted dateDescStrict := by
  have hne : l.Pairwise (fun p q : RetEntry => p.2 ≠ q.2) := List.pairwise_map.mp hn
  exact List.Pairwise.imp (fun h => Nat.lt_of_le_of_ne h.1 (Ne.symm h.2)) (hs.and hne)

theorem sorted_backups_perm_invariant {l1 l2 : List String} (hp : l1.Perm l2)
    (hn : ((backups_with_dates l1).map Prod.snd).Nodup) :
    sorted_backups l1 = sorted_backups l2 := by
  have hbp : (backups_with_dates l1).Perm (backups_with_dates l2) :=
    hp.filterMap (fun f => (parse_backup_date f).map (fun d => (f, d)))
  have hp1 : (sorted_backups l1).Perm (backups_with_dates l1) :=
    List.perm_insertionSort dateDesc (backups_with_dates l1)
  have hp2 : (sorted_backups l2).Perm (backups_with_dates l2) :=
    List.perm_insertionSort dateDesc (backups_with_dates l2)
  have hchain : (sorted_backups l1).Perm (sorted_backups l2) :=
    (hp1.trans hbp).trans hp2.symm
  have hn1 : ((sorted_backups l1).map Prod.snd).Nodup :=
    ((hp1.map Prod.snd).nodup_iff).mpr hn
  have hn2 : ((sorted_backups l2).map Prod.snd).Nodup :=
    ((hchain.map Prod.snd).nodup_iff).mp hn1
  have hs1 : (sorted_backups l1).Sorted dateDesc :=
    List.sorted_insertionSort dateDesc (backups_with_dates l1)
  have hs2 : (sorted_backups l2).Sorted dateDesc :=
    List.sorted_insertionSort dateDesc (backups_with_dates l2)
  exact List.eq_of_perm_of_sorted hchain
    (sorted_strict_of_nodup_dates hs1 hn1) (sorted_strict_of_nodup_dates hs2 hn2)

theorem backups_with_dates_filter_dated (l : List String) :
    backups_with_dates (l.filter (fun g => (parse_backup_date g).isSome)) =
      backups_with_dates l := by
  induction l with
  | nil => rfl
  | cons a l ih =>
    cases h : parse_backup_date a <;>
      simp [backups_with_dates, List.filter_cons, List.filterMap_cons, h] <;>
      simpa [backups_with_dates] using ih

/-! ## C1 -/

/-- C1: over any cycle environment, the loop of `main` records exactly one
outcome for every volume of the configured list — it visits all of them in
order (no failure breaks out of the loop) — and the numbers recorded as
succeeded, failed and skipped sum to the length of the volume list. -/
theorem cycle_outcomes_partition :
    ∀ (env : CycleEnv) (volumes : List String),
      (run_cycle env volumes).map Prod.fst = volumes
      ∧ count_outcome .success (run_cycle env volumes)
          + count_outcome .failed (run_cycle env volumes)
          + count_outcome .skipped (run_cycle env volumes) = volumes.length := by
  intro env volumes
  constructor
  · simp [run_cycle, Function.comp_def]
  · induction volumes with
    | nil => simp [run_cycle, count_outcome]
    | cons v vs ih =>
      simp only [run_cycle, List.map_cons, count_outcome, List.countP_cons, List.length_cons] at ih ⊢
      cases hpv : process_volume env v <;>
        simp [hpv, List.countP_map] at ih ⊢ <;> omega

/-- C1 witness: the partition at a concrete environment (one success, one
missing directory, one failing prescript, one upload failure, one success). -/
theorem cycle_outcomes_partition_witness :
    (run_cycle witness_cycle_env ["vol1", "vol2", "vol3", "vol4", "vol5"]).map Prod.fst
        = ["vol1", "vol2", "vol3", "vol4", "vol5"]
    ∧ count_outcome .success (run_cycle witness_cycle_env ["vol1", "vol2", "vol3", "vol4", "vol5"])
        + count_outcome .failed (run_cycle witness_cycle_env ["vol1", "vol2", "vol3", "vol4", "vol5"])
        + count_outcome .skipped (run_cycle witness_cycle_env ["vol1", "vol2", "vol3", "vol4", "vol5"])
        = 5 := by
  simpa using cycle_outcomes_partition witness_cycle_env ["vol1", "vol2", "vol3", "vol4", "vol5"]

/-! ## C2 -/

/-- C2 (amended): the retention selection keeps the `maxKeep` entries with the
newest parsed dates — every kept entry's date is at least every deleted
entry's date — and, provided the parsed dates are pairwise distinct, the
keep/delete partition does not depend on the order of the remote listing
(with equal dates the tie is broken by listing order, so full order
independence fails).  On the ten-entry example with `maxKeep = 7`, exactly the
seven newest are kept and the three oldest deleted. -/
theorem retention_policy_spec :
    (∀ (l1 l2 : List String) (k : Nat), l1.Perm l2 →
        ((backups_with_dates l1).map Prod.snd).Nodup →
        kept_backups l1 k = kept_backups l2 k ∧ deleted_backups l1 k = deleted_backups l2 k)
    ∧ (∀ (l : List String) (k : Nat), ∀ p ∈ kept_backups l k, ∀ q ∈ deleted_backups l k, q.2 ≤ p.2)
    ∧ (kept_backups retention_example_listing 7).map Prod.fst =
        ["volA_20240110.tar.gz", "volA_20240109.tar.gz", "volA_20240108.tar.gz",
         "volA_20240107.tar.gz", "volA_20240106.tar.gz", "volA_20240105.tar.gz",
         "volA_20240104.tar.gz"]
    ∧ (deleted_backups retention_example_listing 7).map Prod.fst =
        ["volA_20240103.tar.gz", "volA_20240102.tar.gz", "volA_20240101.tar.gz"] := by
  refine ⟨?_, ?_, by decide, by decide⟩
  · intro l1 l2 k hp hn
    have h := sorted_backups_perm_invariant hp hn
    exact ⟨by simp [kept_backups, h], by simp [deleted_backups, h]⟩
  · intro l k p hp q hq
    exact (List.sorted_insertionSort dateDesc (backups_with_dates l)).rel_of_mem_take_of_mem_drop hp hq

/-- C2 counterexample: with two entries carrying the *same* date, the
keep/delete partition depends on the listing order — the stable sort breaks
the tie by listing position, so each order keeps a different file. -/
theorem retention_policy_order_counterexample :
    (["b_20240101.tar.gz", "a_20240101.tar.gz"] : List String).Perm
        ["a_20240101.tar.gz", "b_20240101.tar.gz"]
    ∧ kept_backups ["a_20240101.tar.gz", "b_20240101.tar.gz"] 1 =
        [("a_20240101.tar.gz", 20240101)]
    ∧ kept_backups ["b_20240101.tar.gz", "a_20240101.tar.gz"] 1 =
        [("b_20240101.tar.gz", 20240101)]
    ∧ ¬ kept_backups ["a_20240101.tar.gz", "b_20240101.tar.gz"] 1 =
        kept_backups ["b_20240101.tar.gz", "a_20240101.tar.gz"] 1 := by
  refine ⟨List.Perm.swap _ _ _, by decide, by decide, by decide⟩

/-- C2 witness: the order-independence part applied to the example listing and
its reversal. -/
theorem retention_policy_spec_witness :
    kept_backups retention_example_listing 7 = kept_backups retention_example_listing.reverse 7 :=
  (retention_policy_spec.1 retention_example_listing retention_example_listing.reverse 7
    (List.reverse_perm retention_example_listing).symm (by decide)).1

/-! ## C3 -/

/-- C3: an entry whose filename has no parseable embedded date is never
selected for deletion, and the keep/delete selection is unchanged when all
such entries are removed from the listing — they consume none of the
`maxKeep` quota. -/
theorem retention_never_touches_unparseable :
    ∀ (l : List String) (k : Nat) (f : String), f ∈ l → parse_backup_date f = none →
      (∀ p ∈ deleted_backups l k, p.1 ≠ f)
      ∧ kept_backups l k = kept_backups (l.filter (fun g => (parse_backup_date g).isSome)) k
      ∧ deleted_backups l k = deleted_backups (l.filter (fun g => (parse_backup_date g).isSome)) k := by
  intro l k f _ hnone
  refine ⟨?_, ?_, ?_⟩
  · intro p hp hcontra
    have hs : p ∈ sorted_backups l := List.mem_of_mem_drop hp
    have hb : p ∈ backups_with_dates l := by
      simpa [sorted_backups, List.mem_insertionSort] using hs
    obtain ⟨a, _, hfa⟩ := List.mem_filterMap.mp hb
    cases hpa : parse_backup_date a with
    | none => rw [hpa] at hfa; simp at hfa
    | some d =>
      rw [hpa] at hfa
      simp only [Option.map_some', Option.some.injEq] at hfa
      have : parse_backup_date f = some d := by
        rw [← hcontra, ← hfa]
        exact hpa
      simp [hnone] at this
  · simp [kept_backups, sorted_backups, backups_with_dates_filter_dated]
  · simp [deleted_backups, sorted_backups, backups_with_dates_filter_dated]

/-- C3 witness: at a concrete listing holding a dateless `readme.txt`, the
selection ignores it entirely. -/
theorem retention_never_touches_unparseable_witness :
    parse_backup_date "readme.txt" = none
    ∧ kept_backups ["readme.txt", "a_20240101.tar.gz"] 1 =
        kept_backups (["readme.txt", "a_20240101.tar.gz"].filter
          (fun g => (parse_backup_date g).isSome)) 1 :=
  ⟨by decide,
    (retention_never_touches_unparseable ["readme.txt", "a_20240101.tar.gz"] 1 "readme.txt"
      (by decide) (by decide)).2.1⟩

/-! ## C10 -/

/-- C10 (amended): `parse_backup_date` returns a date exactly for inputs whose
text — after tolerating one trailing newline, which the regex end anchor `$`
also accepts — ends with an underscore, exactly eight digits and the literal
suffix `.tar.gz`, with the eight digits forming a valid calendar date; every
other input (a different extension, a non-terminal date, an impossible date
such as `20241399`) yields `None`. -/
theorem parse_backup_date_spec :
    (∀ (s : String) (n : Nat),
        parse_backup_date s = some n ↔
          endsWithDatedSuffix (stripOneTrailingNewline s.data) = true
          ∧ n = datedValue (stripOneTrailingNewline s.data)
          ∧ validDate (n / 10000) (n / 100 % 100) (n % 100) = true)
    ∧ parse_backup_date "volA_20240101.tar.gz" = some 20240101
    ∧ parse_backup_date "volA_20240101.zip" = none
    ∧ parse_backup_date "volA_20240101.tar.gz.old" = none
    ∧ parse_backup_date "volA_20241399.tar.gz" = none := by
  refine ⟨?_, by decide, by decide, by decide, by decide⟩
  intro s n
  constructor
  · intro h
    unfold parse_backup_date parse_backup_date_chars at h
    split_ifs at h with h1 h2
    injection h with h3
    subst h3
    exact ⟨h1, rfl, h2⟩
  · rintro ⟨h1, rfl, h3⟩
    unfold parse_backup_date parse_backup_date_chars
    rw [if_pos h1, if_pos h3]

/-- C10 counterexample: a single trailing newline is accepted by the regex
anchor, so an input that does *not* end in `.tar.gz` still parses. -/
theorem parse_backup_date_newline_counterexample :
    parse_backup_date "volA_20240101.tar.gz\n" = some 20240101
    ∧ endsWithChars "volA_20240101.tar.gz\n".data tarGzChars = false := by
  exact ⟨by decide, by decide⟩

/-- C10 witness: the characterization applied at a concrete dated filename. -/
theorem parse_backup_date_spec_witness :
    endsWithDatedSuffix (stripOneTrailingNewline "volB_20231231.tar.gz".data) = true
    ∧ 20231231 = datedValue (stripOneTrailingNewline "volB_20231231.tar.gz".data)
    ∧ validDate (20231231 / 10000) (20231231 / 100 % 100) (20231231 % 100) = true :=
  (parse_backup_date_spec.1 "volB_20231231.tar.gz" 20231231).mp (by decide)

/-! ## Helper lemmas for the retry loop -/

theorem run_command_loop_all_fail (exec : CmdAttempt) (err : Nat → String)
    (h : ∀ i, exec i = .error (err i)) (rd : Nat) :
    ∀ (remaining attempt : Nat),
      (run_command_loop exec rd attempt remaining).1 = .error (err (attempt + remaining))
      ∧ (run_command_loop exec rd attempt remaining).2.1 = remaining + 1 := by
  intro remaining
  induction remaining with
  | zero =>
    intro attempt
    simp [run_command_loop, h attempt]
  | succ r ih =>
    intro attempt
    have hrec := ih (attempt + 1)
    have harith : attempt + 1 + r = attempt + (r + 1) := by omega
    rw [harith] at hrec
    simp [run_command_loop, h attempt, hrec.1, hrec.2]

theorem run_command_loop_delay (exec : CmdAttempt) (rd : Nat) :
    ∀ (remaining attempt i : Nat),
      i < (run_command_loop exec rd attempt remaining).2.2.length →
      (run_command_loop exec rd attempt remaining).2.2.getD i 0 = rd * 2 ^ (attempt + i) := by
  intro remaining
  induction remaining with
  | zero =>
    intro attempt i hlen
    simp [run_command_loop] at hlen
  | succ r ih =>
    intro attempt i hlen
    cases hx : exec attempt with
    | ok out =>
      rw [run_command_loop, hx] at hlen
      simp at hlen
    | error e =>
      rw [run_command_loop, hx] at hlen ⊢
      cases i with
      | zero => simp
      | succ j =>
        simp only [List.getD_cons_succ]
        have hlen2 : j < (run_command_loop exec rd (attempt + 1) r).2.2.length := by
          simpa using hlen
        have hrec := ih (attempt + 1) j hlen2
        have harith : attempt + 1 + j = attempt + (j + 1) := by omega
        rw [harith] at hrec
        exact hrec

/-! ## C4 -/

/-- C4: against a command failing on every invocation, `run_command` performs
exactly `retries + 1` attempts and surfaces the error raised by the last
attempt (with `retries = 3`: exactly 4 attempts). -/
theorem run_command_retry_exhaustion :
    ∀ (exec : CmdAttempt) (err : Nat → String) (retries rd : Nat),
      (∀ i, exec i = .error (err i)) →
      (run_command exec retries rd).2.1 = retries + 1
      ∧ (run_command exec retries rd).1 = .error (err retries) := by
  intro exec err retries rd h
  have hmain := run_command_loop_all_fail exec err h rd retries 0
  refine ⟨hmain.2, ?_⟩
  have h0 : (0 : Nat) + retries = retries := Nat.zero_add retries
  rw [h0] at hmain
  exact hmain.1

/-- C4 witness: four attempts and the last error at a command that always
fails, with `retries = 3`. -/
theorem run_command_retry_exhaustion_witness :
    (run_command (fun _ => .error "fail") 3 2).2.1 = 4
    ∧ (run_command (fun _ => .error "fail") 3 2).1 = .error "fail" := by
  have h := run_command_retry_exhaustion (fun _ => .error "fail") (fun _ => "fail") 3 2
    (fun _ => rfl)
  exact ⟨h.1, h.2⟩

/-! ## C5 -/

/-- C5: the backoff delay recorded between failed attempt `i` and attempt
`i + 1` is exactly `retry_delay * 2 ^ i` — a deterministic function of the
attempt number, with no jitter. -/
theorem run_command_backoff_delays :
    ∀ (exec : CmdAttempt) (retries rd i : Nat),
      i < (run_command exec retries rd).2.2.length →
      (run_command exec retries rd).2.2.getD i 0 = rd * 2 ^ i := by
  intro exec retries rd i h
  have hrec := run_command_loop_delay exec rd retries 0 i h
  simpa using hrec

/-- C5 witness: with base delay 5 and an always-failing command, the third
recorded delay (index 2) is `5 * 2 ^ 2 = 20` seconds. -/
theorem run_command_backoff_delays_witness :
    (run_command (fun _ => .error "fail") 3 5).2.2.getD 2 0 = 20 := by
  have h := run_command_backoff_delays (fun _ => .error "fail") 3 5 2 (by decide)
  simpa using h

/-! ## C6 -/

/-- C6: `get_next_run_time` yields a datetime whose time-of-day is the target
and whose day is tomorrow when the current time-of-day has reached the target,
today otherwise; consequently with wakeup 09:00 (32400 s), current time 10:00
(36000 s) and `SKIPFIRSTRUN` disabled, a cycle fires immediately and the next
run is 09:00 of the following day. -/
theorem scheduler_next_run_spec :
    (∀ (now target : Nat), target < secondsPerDay →
        get_next_run_time now target % secondsPerDay = target
        ∧ get_next_run_time now target / secondsPerDay =
            (if target ≤ now % secondsPerDay then now / secondsPerDay + 1
             else now / secondsPerDay))
    ∧ run_first_cycle_immediately false 36000 32400 = true
    ∧ get_next_run_time 36000 32400 = secondsPerDay + 32400 := by
  refine ⟨?_, by decide, by decide⟩
  intro now target ht
  simp only [get_next_run_time, secondsPerDay] at *
  constructor <;> split <;> omega

/-- C6 witness: the decomposition at current time 10:00 and target 09:00. -/
theorem scheduler_next_run_spec_witness :
    get_next_run_time 36000 32400 % secondsPerDay = 32400
    ∧ get_next_run_time 36000 32400 / secondsPerDay = 36000 / secondsPerDay + 1 := by
  have h := scheduler_next_run_spec.1 36000 32400 (by decide)
  constructor
  · exact h.1
  · have h2 := h.2
    norm_num [secondsPerDay] at h2 ⊢
    exact h2

/-! ## C7 -/

/-- C7 (amended): the restore test issues exactly one external command, the
archive-content *listing* `tar tzf <file> > /dev/null`; it returns `True` iff
that command succeeds and `False` when it raises.  It never extracts the
archive and never creates or removes a scratch area (there is none to
release). -/
theorem test_restore_spec :
    ∀ (exec : String → Except String Unit) (backup_file : String),
      test_restore_commands backup_file = ["tar tzf " ++ backup_file ++ " > /dev/null"]
      ∧ (test_restore exec backup_file = true ↔
          exec ("tar tzf " ++ backup_file ++ " > /dev/null") = .ok ()) := by
  intro exec backup_file
  refine ⟨rfl, ?_⟩
  unfold test_restore test_restore_command
  cases hx : exec ("tar tzf " ++ backup_file ++ " > /dev/null") with
  | ok u => cases u; simp [hx]
  | error e => simp [hx]

/-- C7 counterexample: at a concrete archive, the complete command trace of
`test_restore` is one listing command — not an extraction (`tar x...`), not a
removal (`rm ...`) — refuting "extracts the archive to a scratch location and
the scratch area is always removed afterward". -/
theorem test_restore_no_extraction_counterexample :
    test_restore_commands "/backups/volA_20240101.tar.gz" =
        ["tar tzf /backups/volA_20240101.tar.gz > /dev/null"]
    ∧ is_extraction_command "tar tzf /backups/volA_20240101.tar.gz > /dev/null" = false
    ∧ is_removal_command "tar tzf /backups/volA_20240101.tar.gz > /dev/null" = false := by
  exact ⟨by decide, by decide, by decide⟩

/-! ## C8 -/

/-- C8: when the state file is absent, or reading/parsing it raises,
`get_state` returns the fixed default state — status `starting`, zero
counters, null last-error fields — and on that state every health endpoint
produces a response without raising: `/health` answers 200, `/ready` answers
503 (not ready yet), and `/metrics` completes with status 200. -/
theorem default_state_health_endpoints :
    ∀ (c : Except String StDict) (e : String) (isoParse : String → Option Nat)
      (nowTs : Nat) (host nowIso : String),
      get_state false c = default_state
      ∧ get_state true (.error e) = default_state
      ∧ getSt default_state "status" = some (.str "starting")
      ∧ getSt default_state "total_backups" = some (.num 0)
      ∧ getSt default_state "total_failures" = some (.num 0)
      ∧ getSt default_state "volumes_backed_up" = some (.num 0)
      ∧ getSt default_state "volumes_failed" = some (.num 0)
      ∧ getSt default_state "last_error" = some .null
      ∧ getSt default_state "last_backup_time" = some .null
      ∧ (handle_health nowIso default_state).code = 200
      ∧ (handle_ready nowIso default_state).code = 503
      ∧ (handle_metrics isoParse nowTs host default_state).isOk = true := by
  intro c e isoParse nowTs host nowIso
  exact ⟨rfl, rfl, rfl, rfl, rfl, rfl, rfl, rfl, rfl, rfl, rfl, rfl⟩

/-! ## C9 -/

/-- C9: `update_state` never propagates an exception to its caller — every run
either writes the merged state or ends in the logged-error branch of its
catch-all handler; a failure of any sub-step (resolving a callable, creating
the directory, writing the file) is logged, and a failure *reading* the state
file never even reaches the handler because `get_state` already falls back to
the default state, so the update still writes. -/
theorem update_state_never_raises :
    (∀ (ex : Bool) (rc : Except String StDict) (kw : List (String × UpdVal))
        (mk : Except String Unit) (wr : StDict → Except String Unit),
        (∃ s, update_state ex rc kw mk wr = .written s)
        ∨ (∃ e2, update_state ex rc kw mk wr = .errorLogged e2))
    ∧ (∀ (ex : Bool) (rc : Except String StDict) (kw : List (String × UpdVal))
        (mk : Except String Unit) (wr : StDict → Except String Unit) (e : String),
        update_state_body ex rc kw mk wr = .error e →
        update_state ex rc kw mk wr = .errorLogged e)
    ∧ (∀ (e : String) (kw : List (String × UpdVal)) (wr : StDict → Except String Unit)
        (kwv : List (String × JVal)),
        eval_kwargs default_state kw = .ok kwv →
        wr (dict_update default_state kwv) = .ok () →
        update_state true (.error e) kw (.ok ()) wr =
          .written (dict_update default_state kwv)) := by
  refine ⟨?_, ?_, ?_⟩
  · intro ex rc kw mk wr
    cases h : update_state_body ex rc kw mk wr with
    | ok s => exact .inl ⟨s, by simp [update_state, h]⟩
    | error e2 => exact .inr ⟨e2, by simp [update_state, h]⟩
  · intro ex rc kw mk wr e h
    simp [update_state, h]
  · intro e kw wr kwv hkw hwr
    have hbody : update_state_body true (.error e) kw (.ok ()) wr =
        .ok (dict_update default_state kwv) := by
      have hst : get_state true (.error e) = default_state := rfl
      simp [update_state_body, hst, hkw, hwr, Except.map]
    simp [update_state, hbody]

/-- C9 witness: a failing read followed by a failing write — the update ends
in the logged-error outcome rather than raising. -/
theorem update_state_never_raises_witness :
    update_state true (.error "io") [("status", UpdVal.val (JVal.str "running"))]
        (.ok ()) (fun _ => .error "disk full") = .errorLogged "disk full" :=
  update_state_never_raises.2.1 true (.error "io")
    [("status", UpdVal.val (JVal.str "running"))] (.ok ())
    (fun _ => .error "disk full") "disk full" rfl
